import Mathlib

/-!
Verification of the uploadthing SDK upload orchestration
(`packages/uploadthing/src/sdk/utils.ts`) against its specification.

The TypeScript source is shallowly embedded: pure computations become Lean
functions, the Effect-based control flow becomes explicit outcome-passing
functions, JS numbers that hold byte offsets become `Nat`, and JS strings
become `String` (or `List Char` where character-level reasoning is needed).
-/

namespace Uploadthing

/-! ## Data model

`FileEsque` is `Blob & { name, customId? }`: what `uploadFile` reads from a
file is its `name`, `type` and `size`, plus the `slice` capability which we
represent by the computed byte ranges themselves. -/

structure FileEsque where
  name : String
  type : String
  size : Nat
deriving DecidableEq, Repr

/-- The multipart-descriptor variant (`MPUResponse` from shared-schemas):
ordered part URLs, object key, retrieval URL, upload id, chunk size and
content disposition.  Fields as listed in the spec's data model. -/
structure MPUResponse where
  urls : List String
  key : String
  fileUrl : String
  uploadId : String
  chunkSize : Nat
  contentDisposition : String
deriving DecidableEq, Repr

/-- The presigned-POST variant (`PSPResponse` from shared-schemas): target
URL, form-field mapping (an ordered association list, matching JS object
iteration order), object key, retrieval URL, content disposition. -/
structure PSPResponse where
  url : String
  fields : List (String × String)
  key : String
  fileUrl : String
  contentDisposition : String
deriving DecidableEq, Repr

/-- The `UploadDescriptor`: tagged union of the two variants, discriminated in
`uploadFile` by the structural presence of `urls`. -/
inductive Presigned
  | mpu (r : MPUResponse)
  | psp (r : PSPResponse)
deriving DecidableEq, Repr

/-! ## C1: byte ranges sliced by `uploadMultipart`

Source (utils.ts, `uploadMultipart`):
  const offset = presigned.chunkSize * index;
  const end = Math.min(offset + presigned.chunkSize, file.size);
  const chunk = file.slice(offset, end);
-/

/-- Start offset of part `index` (0-indexed): `chunkSize * index`. -/
def partOffset (chunkSize index : Nat) : Nat := chunkSize * index

/-- Exclusive end of part `index`: `min (offset + chunkSize) fileSize`. -/
def partEnd (chunkSize fileSize index : Nat) : Nat :=
  min (partOffset chunkSize index + chunkSize) fileSize

/-! ## C2: ack ordering for `completeMultipartUpload`

Source (utils.ts, `uploadMultipart`):
  const etags = yield* $(Effect.all(
    presigned.urls.map((url, index) => ... uploadPart({...}).pipe(
      Effect.andThen((etag) => ({ tag: etag, partNumber: index + 1 })), ...)),
    { concurrency: "inherit" }));
  ...
  yield* $(completeMultipartUpload(presigned, etags));
-/

/-- The `PartAck` record: the `{ tag, partNumber }` objects built per part in
`uploadMultipart`; `partNumber` is 1-based. -/
structure PartAck where
  tag : String
  partNumber : Nat
deriving DecidableEq, Repr

/-- The ack produced for part index `i`: `{ tag: etag, partNumber: index + 1 }`,
where `tagOf i` is the etag `uploadPart` returned for part `i`. -/
def ackOf (tagOf : Nat → String) (i : Nat) : PartAck :=
  { tag := tagOf i, partNumber := i + 1 }

/-- The etags list `uploadMultipart` passes to `completeMultipartUpload`:
`Effect.all` over `presigned.urls.map((url, index) => ...)` yields each
fiber's value at its input index, so the ack for part `index` sits at list
position `index`. -/
def mpuEtags (tagOf : Nat → String) (n : Nat) : List PartAck :=
  (List.range n).map (fun index => ackOf tagOf index)

/-- Modelled from the spec: `Effect.all` (from the effect library, not in
src) runs the part fibers concurrently and stores each completed fiber's
result at that fiber's input index.  `arrival` is the order in which the
racing part uploads complete; completing part `i` writes its ack into
slot `i`. -/
def fillSlots (tagOf : Nat → String) (arrival : List Nat)
    (slots : List (Option PartAck)) : List (Option PartAck) :=
  arrival.foldl (fun acc i => acc.set i (some (ackOf tagOf i))) slots

/-! ## C3: response decoding in `getPresignedUrls`

Source (utils.ts, `getPresignedUrls`):
  const responseSchema = S.struct({ data: S.array(S.union(mpuSchema, pspSchema)) });
  const presigneds = yield* $(fetchEffJson(..., responseSchema, ...));
  return files.map((file, i) => ({ file, presigned: presigneds.data[i] }));
-/

/-- A JSON value, as decoded from the control plane's response body. -/
inductive Json where
  | null
  | str (s : String)
  | num (n : Int)
  | arr (elems : List Json)
  | obj (fields : List (String × Json))

/-- Field lookup on a JSON object. -/
def Json.getField (j : Json) (k : String) : Option Json :=
  match j with
  | .obj fields => fields.lookup k
  | _ => none

/-- A JSON string value. -/
def Json.asString (j : Json) : Option String :=
  match j with
  | .str s => some s
  | _ => none

/-- A JSON non-negative number value. -/
def Json.asNat (j : Json) : Option Nat :=
  match j with
  | .num n => if n < 0 then none else some n.toNat
  | _ => none

/-- A JSON array of strings. -/
def Json.asStringList (j : Json) : Option (List String) :=
  match j with
  | .arr elems => elems.mapM Json.asString
  | _ => none

/-- A JSON object whose values are all strings, kept in field order. -/
def Json.asStringPairs (j : Json) : Option (List (String × String)) :=
  match j with
  | .obj fields =>
      fields.mapM (fun kv => (Json.asString kv.2).map (fun v => (kv.1, v)))
  | _ => none

/-- Modelled from the spec: `mpuSchema` (shared-schemas, not in src)
decodes one JSON value into the multipart descriptor, requiring its
`urls`, `key`, `fileUrl`, `uploadId`, `chunkSize` and
`contentDisposition` fields. -/
def decodeMpu (j : Json) : Option MPUResponse := do
  let urls ← (j.getField "urls").bind Json.asStringList
  let key ← (j.getField "key").bind Json.asString
  let fileUrl ← (j.getField "fileUrl").bind Json.asString
  let uploadId ← (j.getField "uploadId").bind Json.asString
  let chunkSize ← (j.getField "chunkSize").bind Json.asNat
  let contentDisposition ← (j.getField "contentDisposition").bind Json.asString
  pure { urls, key, fileUrl, uploadId, chunkSize, contentDisposition }

/-- Modelled from the spec: `pspSchema` (shared-schemas, not in src)
decodes one JSON value into the presigned-POST descriptor, requiring its
`url`, `fields`, `key`, `fileUrl` and `contentDisposition` fields. -/
def decodePsp (j : Json) : Option PSPResponse := do
  let url ← (j.getField "url").bind Json.asString
  let fields ← (j.getField "fields").bind Json.asStringPairs
  let key ← (j.getField "key").bind Json.asString
  let fileUrl ← (j.getField "fileUrl").bind Json.asString
  let contentDisposition ← (j.getField "contentDisposition").bind Json.asString
  pure { url, fields, key, fileUrl, contentDisposition }

/-- The union schema `S.union(mpuSchema, pspSchema)`: try the multipart schema first, then
the presigned-POST schema. -/
def decodeDescriptor (j : Json) : Option Presigned :=
  match decodeMpu j with
  | some r => some (.mpu r)
  | none => (decodePsp j).map .psp

/-- The array schema `S.array(...)`: decode every element; the array schema imposes no
length constraint. -/
def decodeResponseData (data : List Json) : Option (List Presigned) :=
  data.mapM decodeDescriptor

/-- Outcome of `getPresignedUrls` after the response arrived: either the
schema decode fails (fatal) or each input file is paired with the
descriptor at its index — `presigneds.data[i]`, which in JS is
`undefined` (here `none`) when `i` is beyond the decoded array. -/
inductive GetPresignedsResult where
  | decodeError
  | ok (pairs : List (FileEsque × Option Presigned))
deriving DecidableEq, Repr

/-- The `getPresignedUrls` pipeline, given the parsed JSON `data` array of the
`/api/uploadFiles` response body. -/
def getPresignedUrls (files : List FileEsque) (responseData : List Json) :
    GetPresignedsResult :=
  match decodeResponseData responseData with
  | none => .decodeError
  | some data => .ok (files.mapIdx (fun i file => (file, data.get? i)))

/-- Concrete input for the count-mismatch scenario: two files. -/
def cexFiles : List FileEsque :=
  [{ name := "a.png", type := "image/png", size := 100 },
   { name := "b.png", type := "image/png", size := 200 }]

/-- Concrete response data for the count-mismatch scenario: a single
well-formed presigned-POST descriptor for two input files. -/
def cexResponseData : List Json :=
  [.obj [("url", .str "https://storage.example/bucket"),
         ("fields", .obj [("key", .str "abc"), ("policy", .str "xyz")]),
         ("key", .str "abc"),
         ("fileUrl", .str "https://utfs.example/f/abc"),
         ("contentDisposition", .str "inline")]]

/-- The descriptor `cexResponseData` decodes to. -/
def cexPsp : PSPResponse :=
  { url := "https://storage.example/bucket"
    fields := [("key", "abc"), ("policy", "xyz")]
    key := "abc"
    fileUrl := "https://utfs.example/f/abc"
    contentDisposition := "inline" }

/-! ## C4: completion poller in `uploadFile`

Source (utils.ts, `uploadFile`):
  fetchEffJson(generateUploadThingURL(`/api/pollUpload/...`), S.struct({ status: S.string })),
  Effect.andThen((res) => res.status === "done" ? Effect.succeed(undefined)
                                                : Effect.fail(new RetryError())),
  Effect.retry({ while: (err) => err instanceof RetryError, schedule: exponentialBackoff }),
  Effect.catchTag("RetryError", (e) => Effect.die(e))
-/

/-- Outcome of one `fetchEffJson(pollUpload)` call: either the request
succeeded and decoded to `{ status }`, or it failed at transport/decode
level. -/
inductive PollOutcome where
  | ok (status : String)
  | transportError
deriving DecidableEq, Repr

/-- Errors of the poll pipeline: the `RetryError` raised on a non-"done"
status, or the propagated transport failure (not a `RetryError`). -/
inductive PollError where
  | retryError
  | fetchError
deriving DecidableEq, Repr

/-- One poll attempt: `res.status === "done" ? Effect.succeed(undefined)
: Effect.fail(new RetryError())`, transport failures passing through. -/
def pollStep (o : PollOutcome) : Except PollError Unit :=
  match o with
  | .ok s => if s = "done" then .ok () else .error .retryError
  | .transportError => .error .fetchError

/-- The retry predicate `while: (err) => err instanceof RetryError`. -/
def retryWhile (e : PollError) : Bool :=
  match e with
  | .retryError => true
  | .fetchError => false

/-- Whether one attempt's outcome causes another attempt. -/
def pollRetries (o : PollOutcome) : Bool :=
  match pollStep o with
  | .ok _ => false
  | .error e => retryWhile e

/-- The combinator `Effect.retry({ while, schedule: exponentialBackoff })`: attempt `k`
sees outcome `outs k`; an error satisfying the predicate is retried as
long as the backoff schedule grants another slot (`fuel`, the schedule
itself is in shared, not in src), else it surfaces. -/
def pollRetry (outs : Nat → PollOutcome) : Nat → Nat → Except PollError Unit
  | fuel, k =>
    match pollStep (outs k) with
    | .ok _ => .ok ()
    | .error e =>
        if retryWhile e then
          match fuel with
          | 0 => .error e
          | fuel' + 1 => pollRetry outs fuel' (k + 1)
        else .error e

/-- Exit of the poll stage inside `uploadFile`: success, a typed failure,
or a defect. -/
inductive PollFinal where
  | success
  | failure (e : PollError)
  | died
deriving DecidableEq, Repr

/-- The poll stage: the retried poll followed by
`Effect.catchTag("RetryError", (e) => Effect.die(e))`. -/
def pollAndCatch (outs : Nat → PollOutcome) (fuel : Nat) : PollFinal :=
  match pollRetry outs fuel 0 with
  | .ok _ => .success
  | .error .retryError => .died
  | .error .fetchError => .failure .fetchError

/-- Concrete poll outcomes for witnesses: "pending", then "", then
"done". -/
def cexPollOuts : Nat → PollOutcome := fun k =>
  if k = 0 then .ok "pending" else if k = 1 then .ok "" else .ok "done"

/-! ## C5: part-upload calls and retry exhaustion in `uploadMultipart` -/

/-- The argument record of one `uploadPart` call made by
`uploadMultipart`. -/
structure UploadPartCall where
  url : String
  contentDisposition : String
  contentType : String
  fileName : String
  maxRetries : Nat
  key : String
deriving DecidableEq, Repr

/-- The `uploadPart` calls issued by `uploadMultipart`: one per part URL,
each with `maxRetries: 10` (utils.ts, `uploadMultipart`). -/
def uploadMultipartPartCalls (file : FileEsque) (presigned : MPUResponse) :
    List UploadPartCall :=
  presigned.urls.map (fun url =>
    { url := url
      contentDisposition := presigned.contentDisposition
      contentType := file.type
      fileName := file.name
      maxRetries := 10
      key := presigned.key })

/-- Modelled from the spec: the final outcome of one `uploadPart` call
(internal/multi-part, not in src) — an etag after at most `maxRetries`
attempts, or a `RetryError` once the bounded retries are exhausted. -/
inductive PartOutcome where
  | success (etag : String)
  | exhausted
deriving DecidableEq, Repr

/-- Result of `uploadMultipart`: either every part succeeded and
`completeMultipartUpload(presigned, etags)` was called with the collected
acks, or some part exhausted its retries and its `RetryError` was turned
by `Effect.catchTag("RetryError", (e) => Effect.die(e))` into a defect
aborting `Effect.all` — the completion call then never happens. -/
inductive MpuResult where
  | completed (etags : List PartAck)
  | died
deriving DecidableEq, Repr

/-- Collect the acks of the part fibers listed in `l` (`Effect.all`:
all succeed, or the whole collection fails). -/
def collectAcksAux (outcomes : Nat → PartOutcome) : List Nat → Option (List PartAck)
  | [] => some []
  | i :: rest =>
    match outcomes i with
    | .success etag =>
        (collectAcksAux outcomes rest).map
          (fun acks => { tag := etag, partNumber := i + 1 } :: acks)
    | .exhausted => none

/-- The result of `uploadMultipart` driving part fibers with final outcomes
`outcomes`. -/
def uploadMultipartRun (outcomes : Nat → PartOutcome)
    (presigned : MPUResponse) : MpuResult :=
  match collectAcksAux outcomes (List.range presigned.urls.length) with
  | some etags => .completed etags
  | none => .died

/-- A concrete multipart descriptor for witnesses. -/
def cexMpu : MPUResponse :=
  { urls := ["https://storage.example/p1", "https://storage.example/p2"]
    key := "abc"
    fileUrl := "https://utfs.example/f/abc"
    uploadId := "upl1"
    chunkSize := 100
    contentDisposition := "inline" }

/-- A concrete file for witnesses. -/
def cexFile : FileEsque := { name := "a.png", type := "image/png", size := 150 }

/-! ## C6 and C10: per-file aggregation in `uploadFilesInternal`

Source (utils.ts, `uploadFilesInternal`):
  Effect.forEach(presigneds, (file) => uploadFile(file).pipe(
    Effect.match({
      onFailure: (error) => ({ data: null, error }),
      onSuccess: (data) => ({ data, error: null }),
    })), { concurrency: 10 })
-/

/-- The `UploadResult` record: the success value `uploadFile` returns. -/
structure UploadResult where
  key : String
  url : String
  name : String
  size : Nat
deriving DecidableEq, Repr

/-- The Effect-level exit of one file's upload pipeline: a success, a
typed failure (an `UploadThingError`-style value, here its message), or a
defect (`Effect.die`). -/
inductive PipelineExit where
  | success (r : UploadResult)
  | failure (e : String)
  | died
deriving DecidableEq, Repr

/-- The per-file `{ data, error }` record. -/
structure FileResult where
  data : Option UploadResult
  error : Option String
deriving DecidableEq, Repr

/-- The effect of `Effect.match({ onFailure, onSuccess })` on one exit: typed failures
and successes both become `{ data, error }` records; a defect is not
matched and stays a defect (`none` here). -/
def matchExit (e : PipelineExit) : Option FileResult :=
  match e with
  | .success r => some { data := some r, error := none }
  | .failure err => some { data := none, error := some err }
  | .died => none

/-- Result of the batch: the ordered per-file records, or a batch-wide
defect propagated out of `Effect.forEach`. -/
inductive BatchResult where
  | ok (results : List FileResult)
  | died
deriving DecidableEq, Repr

/-- Collect the matched per-file records of the pipelines listed in `l`;
a defect aborts the whole collection. -/
def collectFileResultsAux (exits : Nat → PipelineExit) :
    List Nat → Option (List FileResult)
  | [] => some []
  | i :: rest =>
    match matchExit (exits i) with
    | some r => (collectFileResultsAux exits rest).map (fun rs => r :: rs)
    | none => none

/-- The body of `uploadFilesInternal` after the presigned URLs arrived:
`Effect.forEach` over the per-file pipelines, each piped through
`Effect.match`. -/
def uploadFilesInternalRun (exits : Nat → PipelineExit) (n : Nat) :
    BatchResult :=
  match collectFileResultsAux exits (List.range n) with
  | some rs => .ok rs
  | none => .died

/-- A concrete upload result for witnesses. -/
def cexUploadResult : UploadResult :=
  { key := "abc", url := "https://utfs.example/f/abc"
    name := "a.png", size := 150 }

/-- Concrete pipeline exits for witnesses: file 0 succeeds, file 1 fails
with a typed error, file 2 succeeds. -/
def cexExits : Nat → PipelineExit := fun i =>
  if i = 0 then .success cexUploadResult
  else if i = 1 then .failure "upload failed"
  else .success cexUploadResult

/-! ## C7: `uploadPresignedPost`

Source (utils.ts, `uploadPresignedPost`):
  const formData = new FormData();
  Object.entries(presigned.fields).forEach(([k, v]) => formData.append(k, v));
  formData.append("file", file as Blob); // File data **MUST GO LAST**
  const res = yield* $(fetchEff(presigned.url, { method: "POST", body: formData,
    headers: new Headers({ Accept: "application/xml" }) }));
  if (!res.ok) { ... throw new UploadThingError({ code: "UPLOAD_FAILED",
    message: "Failed to upload file", cause: text }); }
-/

/-- An entry of the multipart form body: a string field or the file
payload. -/
inductive FormValue where
  | str (s : String)
  | file (f : FileEsque)
deriving DecidableEq, Repr

/-- The form body built by `uploadPresignedPost`: every field of the
descriptor's field mapping in iteration order, then the file payload
under the name "file", strictly last. -/
def uploadPresignedPostForm (file : FileEsque) (presigned : PSPResponse) :
    List (String × FormValue) :=
  presigned.fields.map (fun kv => (kv.1, FormValue.str kv.2))
    ++ [("file", FormValue.file file)]

/-- The headers of the presigned POST request. -/
def uploadPresignedPostHeaders : List (String × String) :=
  [("Accept", "application/xml")]

/-- An HTTP response as `uploadPresignedPost` inspects it: its `ok` flag
and its body text. -/
structure HttpResponse where
  ok : Bool
  text : String
deriving DecidableEq, Repr

/-- An `UploadThingError`-style value: machine-readable code, message,
attached cause. -/
structure UTError where
  code : String
  message : String
  cause : Option String
deriving DecidableEq, Repr

/-- Outcome of `uploadPresignedPost` once the POST response arrived. -/
inductive PspResult where
  | success
  | failed (e : UTError)
deriving DecidableEq, Repr

/-- The `if (!res.ok)` branch of `uploadPresignedPost`. -/
def uploadPresignedPostResult (res : HttpResponse) : PspResult :=
  if res.ok then .success
  else .failed { code := "UPLOAD_FAILED", message := "Failed to upload file",
                 cause := some res.text }

/-! ## C8: file-name derivation in `downloadFiles`

Source (utils.ts, `downloadFiles`):
  const name = url.toString().split("/").pop();
  return new UTFile([blob], name ?? "unknown-filename");
-/

/-- JS `String.prototype.split` with the one-character separator `c`:
the segments between occurrences of `c`, empty segments kept, and
`"".split(c) = [""]`. -/
def splitOnChar (c : Char) : List Char → List (List Char)
  | [] => [[]]
  | x :: xs =>
    if x = c then [] :: splitOnChar c xs
    else
      match splitOnChar c xs with
      | [] => [[x]]
      | seg :: rest => (x :: seg) :: rest

/-- The name derivation `url.toString().split("/").pop()` followed by
`name ?? "unknown-filename"`: `pop()` is `undefined` only on an empty
array, and `??` substitutes only for `null`/`undefined` — an empty
string passes through. -/
def deriveFileName (url : String) : String :=
  match (splitOnChar '/' url.toList).getLast? with
  | some seg => String.mk seg
  | none => "unknown-filename"

/-! ## C9: concurrency options

Source: `{ concurrency: 10 }` in `uploadFilesInternal` and
`downloadFiles`; `{ concurrency: "inherit" }` in `uploadMultipart`.
-/

/-- The effect library's concurrency option, as the three call sites use
it. -/
inductive ConcurrencyOption where
  | bounded (n : Nat)
  | inherit
deriving DecidableEq, Repr

/-- The concurrency option of the `Effect.forEach` over file pipelines in
`uploadFilesInternal`: the literal `{ concurrency: 10 }`, whatever the
batch input is. -/
def uploadFilesInternalConcurrency (files : List FileEsque) :
    ConcurrencyOption :=
  .bounded 10

/-- The concurrency option of the `Effect.forEach` over URLs in
`downloadFiles`: the literal `{ concurrency: 10 }`, whatever the URL list
is. -/
def downloadFilesConcurrency (urls : List String) : ConcurrencyOption :=
  .bounded 10

/-- The concurrency option of the `Effect.all` over part fibers in
`uploadMultipart`: the literal `{ concurrency: "inherit" }`. -/
def uploadMultipartConcurrency (file : FileEsque)
    (presigned : MPUResponse) : ConcurrencyOption :=
  .inherit

/-- An event in a concurrent scope: a fiber starts or finishes. -/
inductive FiberEvent where
  | start (i : Nat)
  | finish (i : Nat)
deriving DecidableEq, Repr

/-- The number of in-flight fibers after the events, starting from `c`
in flight. -/
def runCount (c : Nat) (events : List FiberEvent) : Nat :=
  events.foldl
    (fun cur e => match e with | .start _ => cur + 1 | .finish _ => cur - 1) c

/-- Modelled from the spec: a legal schedule of a scope bounded by `cap`
(the effect library's `{ concurrency: n }` semantics, not in src) — with
`c` fibers in flight, a fiber may start only while `c < cap`, and only an
in-flight fiber can finish. -/
inductive ValidTrace (cap : Nat) : Nat → List FiberEvent → Prop
  | nil (c : Nat) : ValidTrace cap c []
  | start (c i : Nat) (rest : List FiberEvent) :
      c < cap → ValidTrace cap (c + 1) rest →
      ValidTrace cap c (.start i :: rest)
  | finish (c i : Nat) (rest : List FiberEvent) :
      0 < c → ValidTrace cap (c - 1) rest →
      ValidTrace cap c (.finish i :: rest)

/-! ## Theorems -/

/-- Helper: with `n = ⌈fs/cs⌉` parts, every non-final part ends strictly
inside the file. -/
theorem mul_lt_of_lt_ceilCount {cs fs n : Nat} (hpos : 0 < cs)
    (hn : n = (fs + cs - 1) / cs) {i : Nat} (hi : i + 1 < n) :
    cs * (i + 1) < fs := by
  have hqr : cs * ((fs + cs - 1) / cs) + (fs + cs - 1) % cs = fs + cs - 1 :=
    Nat.div_add_mod _ _
  have hr : (fs + cs - 1) % cs < cs := Nat.mod_lt _ hpos
  obtain ⟨q', hq'⟩ : ∃ q', (fs + cs - 1) / cs = q' + 1 := by
    refine ⟨(fs + cs - 1) / cs - 1, ?_⟩
    omega
  rw [hq'] at hqr
  have hmul : cs * (q' + 1) = cs * q' + cs := Nat.mul_succ cs q'
  have hle : cs * (i + 1) ≤ cs * q' := by
    refine Nat.mul_le_mul (Nat.le_refl cs) ?_
    omega
  omega

/-- Helper: with `n = ⌈fs/cs⌉` parts, the file ends no later than the last
part's nominal end. -/
theorem fs_le_mul_ceilCount {cs fs n : Nat} (hpos : 0 < cs)
    (hn : n = (fs + cs - 1) / cs) : fs ≤ cs * n := by
  have hqr : cs * ((fs + cs - 1) / cs) + (fs + cs - 1) % cs = fs + cs - 1 :=
    Nat.div_add_mod _ _
  have hr : (fs + cs - 1) % cs < cs := Nat.mod_lt _ hpos
  subst hn
  omega

/-- C1.  For a multipart descriptor with `chunkSize > 0` and
`n = ⌈fileSize / chunkSize⌉` part URLs, the byte ranges
`[partOffset i, partEnd i)` sliced by `uploadMultipart` satisfy: part `i`
is exactly `[i·chunkSize, min ((i+1)·chunkSize) fileSize)`, the ranges are
contiguous, non-overlapping, their union is exactly `[0, fileSize)`, and
every part except possibly the last has length exactly `chunkSize`. -/
theorem uploadMultipart_partition (cs fs n : Nat) (hpos : 0 < cs)
    (hn : n = (fs + cs - 1) / cs) :
    (∀ i, i < n →
        partOffset cs i = cs * i ∧ partEnd cs fs i = min (cs * (i + 1)) fs)
    ∧ (∀ i, i + 1 < n → partEnd cs fs i = partOffset cs (i + 1))
    ∧ (0 < n → partOffset cs 0 = 0 ∧ partEnd cs fs (n - 1) = fs)
    ∧ (∀ i, i + 1 < n → partEnd cs fs i - partOffset cs i = cs)
    ∧ (∀ b, b < fs →
        ∃ i, i < n ∧ partOffset cs i ≤ b ∧ b < partEnd cs fs i)
    ∧ (∀ i j, i < n → j < n → i ≠ j →
        ∀ b, partOffset cs i ≤ b → b < partEnd cs fs i →
          ¬ (partOffset cs j ≤ b ∧ b < partEnd cs fs j)) := by
  have hstep : ∀ i : Nat, i + 1 < n → partEnd cs fs i = cs * (i + 1) := by
    intro i hi
    have hlt : cs * (i + 1) < fs := mul_lt_of_lt_ceilCount hpos hn hi
    simp only [partEnd, partOffset]
    have : cs * i + cs = cs * (i + 1) := (Nat.mul_succ cs i).symm
    rw [this]
    exact Nat.min_eq_left (Nat.le_of_lt hlt)
  refine ⟨?_, ?_, ?_, ?_, ?_, ?_⟩
  · intro i _
    constructor
    · rfl
    · simp only [partEnd, partOffset, Nat.mul_succ]
  · intro i hi
    rw [hstep i hi]
    rfl
  · intro hn0
    refine ⟨Nat.mul_zero cs, ?_⟩
    have hfs : fs ≤ cs * n := fs_le_mul_ceilCount hpos hn
    have hlast : cs * (n - 1) < fs := by
      rcases Nat.eq_zero_or_pos fs with hfs0 | hfs0
      · exfalso
        have : (fs + cs - 1) / cs = 0 := by
          apply Nat.div_eq_of_lt
          omega
        omega
      · rcases Nat.eq_zero_or_pos (n - 1) with h1 | h1
        · simpa [h1] using hfs0
        · have : (n - 1) - 1 + 1 < n := by omega
          have := mul_lt_of_lt_ceilCount hpos hn this
          have heq : (n - 1) - 1 + 1 = n - 1 := by omega
          rwa [heq] at this
    simp only [partEnd, partOffset]
    have hsucc : cs * (n - 1) + cs = cs * n := by
      have : n - 1 + 1 = n := by omega
      calc cs * (n - 1) + cs = cs * (n - 1 + 1) := (Nat.mul_succ _ _).symm
        _ = cs * n := by rw [this]
    refine Nat.min_eq_right ?_
    omega
  · intro i hi
    rw [hstep i hi]
    simp only [partOffset, Nat.mul_succ]
    omega
  · intro b hb
    refine ⟨b / cs, ?_, ?_, ?_⟩
    · have h1 : b / cs ≤ (fs - 1) / cs := Nat.div_le_div_right (by omega)
      have h2 : (fs - 1 + cs) / cs = (fs - 1) / cs + 1 :=
        Nat.add_div_right _ hpos
      have h3 : fs - 1 + cs = fs + cs - 1 := by omega
      rw [h3] at h2
      omega
    · exact Nat.mul_div_le b cs
    · simp only [partEnd, partOffset]
      refine lt_min ?_ hb
      have := Nat.lt_div_mul_add (a := b) hpos
      calc b < b / cs * cs + cs := this
        _ = cs * (b / cs) + cs := by ring
  · intro i j hi hj hij b hib hib' hjb
    obtain ⟨hjb1, hjb2⟩ := hjb
    have hdi : b / cs = i := by
      refine Nat.div_eq_of_lt_le ?_ ?_
      · simpa [partOffset, Nat.mul_comm] using hib
      · have : b < cs * i + cs := lt_of_lt_of_le hib' (by
          simp only [partEnd, partOffset]
          exact Nat.min_le_left _ _)
        calc b < cs * i + cs := this
          _ = (i + 1) * cs := by ring
    have hdj : b / cs = j := by
      refine Nat.div_eq_of_lt_le ?_ ?_
      · simpa [partOffset, Nat.mul_comm] using hjb1
      · have : b < cs * j + cs := lt_of_lt_of_le hjb2 (by
          simp only [partEnd, partOffset]
          exact Nat.min_le_left _ _)
        calc b < cs * j + cs := this
          _ = (j + 1) * cs := by ring
    exact hij (hdi ▸ hdj)

/-- Witness for C1 at the spec's end-to-end scenario B: file size 4,500,000
bytes, chunk size 1,000,000, five parts. -/
theorem uploadMultipart_partition_witness :
    0 < 1000000 ∧ 5 = (4500000 + 1000000 - 1) / 1000000 ∧
    ((∀ i, i < 5 → partOffset 1000000 i = 1000000 * i ∧
        partEnd 1000000 4500000 i = min (1000000 * (i + 1)) 4500000)
    ∧ (∀ i, i + 1 < 5 →
        partEnd 1000000 4500000 i = partOffset 1000000 (i + 1))
    ∧ (0 < 5 → partOffset 1000000 0 = 0 ∧
        partEnd 1000000 4500000 (5 - 1) = 4500000)
    ∧ (∀ i, i + 1 < 5 →
        partEnd 1000000 4500000 i - partOffset 1000000 i = 1000000)
    ∧ (∀ b, b < 4500000 →
        ∃ i, i < 5 ∧ partOffset 1000000 i ≤ b ∧ b < partEnd 1000000 4500000 i)
    ∧ (∀ i j, i < 5 → j < 5 → i ≠ j →
        ∀ b, partOffset 1000000 i ≤ b → b < partEnd 1000000 4500000 i →
          ¬ (partOffset 1000000 j ≤ b ∧ b < partEnd 1000000 4500000 j))) :=
  ⟨by norm_num, by norm_num,
    uploadMultipart_partition 1000000 4500000 5 (by norm_num) (by norm_num)⟩

/-- Helper: reading a list after `set` at a possibly different index. -/
theorem get?_set_if {α : Type} (l : List α) (i j : Nat) (a : α) :
    (l.set i a).get? j =
      if i = j ∧ j < l.length then some a else l.get? j := by
  rw [List.get?_eq_getElem?, List.get?_eq_getElem?, List.getElem?_set]
  by_cases h1 : i = j
  · subst h1
    by_cases h2 : i < l.length <;>
      simp [h2, List.getElem?_eq_none, Nat.le_of_not_lt]
  · simp [h1]

/-- Helper: `fillSlots` writes the ack of part `j` into slot `j` and
touches nothing else. -/
theorem fillSlots_get? (tagOf : Nat → String) (arrival : List Nat) :
    ∀ (slots : List (Option PartAck)) (j : Nat),
      (fillSlots tagOf arrival slots).get? j =
        if j ∈ arrival ∧ j < slots.length then some (some (ackOf tagOf j))
        else slots.get? j := by
  induction arrival with
  | nil =>
    intro slots j
    simp [fillSlots]
  | cons i rest ih =>
    intro slots j
    have hcons : fillSlots tagOf (i :: rest) slots =
        fillSlots tagOf rest (slots.set i (some (ackOf tagOf i))) := rfl
    rw [hcons, ih, List.length_set, get?_set_if]
    by_cases hj : j < slots.length
    · by_cases hjr : j ∈ rest
      · simp [hjr, hj, List.mem_cons]
      · by_cases hij : i = j
        · subst hij
          simp [hjr, hj, List.mem_cons]
        · have hni : ¬ j ∈ i :: rest := by
            intro hmem
            rcases List.mem_cons.mp hmem with h | h
            · exact hij h.symm
            · exact hjr h
          simp [hjr, hj, hij, hni]
    · simp [hj]

/-- C2.  Whatever the completion order `arrival` of the racing part
uploads (any order covering every part index), the ack list passed to
`completeMultipartUpload` is exactly the positionally collected
`mpuEtags`: the ack at list position `j` carries `partNumber = j + 1`,
and the list is sorted strictly ascending by `partNumber`. -/
theorem uploadMultipart_acks_sorted (tagOf : Nat → String) (n : Nat)
    (arrival : List Nat) (hcover : ∀ j, j < n → j ∈ arrival) :
    fillSlots tagOf arrival (List.replicate n none) =
      (mpuEtags tagOf n).map some
    ∧ (∀ j, j < n → (mpuEtags tagOf n).get? j = some (ackOf tagOf j))
    ∧ List.Pairwise (fun a b : PartAck => a.partNumber < b.partNumber)
        (mpuEtags tagOf n) := by
  refine ⟨?_, ?_, ?_⟩
  · apply List.ext_get?
    intro j
    rw [fillSlots_get?, List.length_replicate]
    by_cases hj : j < n
    · simp [hcover j hj, hj, mpuEtags, List.get?_eq_getElem?,
        List.getElem?_map, List.getElem?_range]
    · have h1 : (List.range n)[j]? = none := by
        apply List.getElem?_eq_none
        simpa using Nat.le_of_not_lt hj
      simp [hj, mpuEtags, List.get?_eq_getElem?, List.getElem?_map, h1,
        List.getElem?_replicate]
  · intro j hj
    simp [mpuEtags, List.get?_eq_getElem?, List.getElem?_map,
      List.getElem?_range, hj]
  · rw [mpuEtags, List.pairwise_map]
    refine List.Pairwise.imp ?_ (List.pairwise_lt_range n)
    intro a b h
    simpa [ackOf] using h

/-- Witness for C2: three parts completing in the order 2, 0, 1 still
yield acks at positions 0, 1, 2 with part numbers 1, 2, 3. -/
theorem uploadMultipart_acks_sorted_witness :
    (∀ j, j < 3 → j ∈ [2, 0, 1])
    ∧ (fillSlots (fun i => toString i) [2, 0, 1] (List.replicate 3 none) =
        (mpuEtags (fun i => toString i) 3).map some
      ∧ (∀ j, j < 3 → (mpuEtags (fun i => toString i) 3).get? j =
          some (ackOf (fun i => toString i) j))
      ∧ List.Pairwise (fun a b : PartAck => a.partNumber < b.partNumber)
          (mpuEtags (fun i => toString i) 3)) :=
  ⟨by decide,
    uploadMultipart_acks_sorted (fun i => toString i) 3 [2, 0, 1] (by decide)⟩

/-- C3 counterexample.  A response whose `data` array holds one
well-formed descriptor for a batch of two files decodes fine: the batch
does not fail with a decode error; instead the first file is paired with
the descriptor and proceeds to its upload, while the second file is
paired with no descriptor at all. -/
theorem getPresignedUrls_count_mismatch :
    getPresignedUrls cexFiles cexResponseData ≠ .decodeError
    ∧ getPresignedUrls cexFiles cexResponseData =
        .ok [({ name := "a.png", type := "image/png", size := 100 },
               some (.psp cexPsp)),
             ({ name := "b.png", type := "image/png", size := 200 }, none)] := by
  constructor
  · decide
  · decide

/-- C3 amended.  The response schema checks only the shape of each
element, never the count: whenever every element of the `data` array
decodes, `getPresignedUrls` succeeds, pairing file `i` with the decoded
descriptor at index `i` — `none` when the array is shorter than the file
list (the missing-descriptor files fail only later, at per-file upload
time) and silently dropping descriptors beyond the file list. -/
theorem getPresignedUrls_no_length_check (files : List FileEsque)
    (responseData : List Json) (data : List Presigned)
    (hdec : decodeResponseData responseData = some data) :
    getPresignedUrls files responseData =
      .ok (files.mapIdx fun i file => (file, data.get? i))
    ∧ (files.mapIdx fun i file => (file, data.get? i)).length = files.length
    ∧ (∀ j, data.length ≤ j → j < files.length →
        (files.mapIdx fun i file => (file, data.get? i)).get? j =
          (files.get? j).map (fun f => (f, none))) := by
  refine ⟨?_, List.length_mapIdx, ?_⟩
  · simp [getPresignedUrls, hdec]
  · intro j hjd hjf
    have hnone : data.get? j = none := by
      rw [List.get?_eq_getElem?]
      exact List.getElem?_eq_none hjd
    simp [List.get?_eq_getElem?, List.getElem?_mapIdx, hjf, hnone,
      List.getElem?_eq_none hjd]

/-- Witness for the amended C3 at the concrete count-mismatch input. -/
theorem getPresignedUrls_no_length_check_witness :
    decodeResponseData cexResponseData = some [.psp cexPsp]
    ∧ (getPresignedUrls cexFiles cexResponseData =
        .ok (cexFiles.mapIdx fun i file => (file, [Presigned.psp cexPsp].get? i))
      ∧ (cexFiles.mapIdx fun i file =>
          (file, [Presigned.psp cexPsp].get? i)).length = cexFiles.length
      ∧ (∀ j, [Presigned.psp cexPsp].length ≤ j → j < cexFiles.length →
          (cexFiles.mapIdx fun i file =>
            (file, [Presigned.psp cexPsp].get? i)).get? j =
            (cexFiles.get? j).map (fun f => (f, none)))) :=
  ⟨by decide,
    getPresignedUrls_no_length_check cexFiles cexResponseData
      [.psp cexPsp] (by decide)⟩

/-- C4.  In the completion poller, an attempt is retried iff the poll
request succeeded and the decoded status is not exactly "done" (any other
string, the empty string included, raises a `RetryError` and another
attempt); a transport-level error is never retried and propagates as a
fatal failure, whatever backoff budget remains. -/
theorem uploadFile_poll_retry_iff :
    (∀ o, pollRetries o = true ↔ ∃ s, o = .ok s ∧ s ≠ "done")
    ∧ (∀ outs fuel k, outs k = .ok "done" → pollRetry outs fuel k = .ok ())
    ∧ (∀ outs fuel k s, outs k = .ok s → s ≠ "done" →
        pollRetry outs (fuel + 1) k = pollRetry outs fuel (k + 1))
    ∧ (∀ outs fuel k, outs k = .transportError →
        pollRetry outs fuel k = .error .fetchError)
    ∧ (∀ outs fuel, outs 0 = .transportError →
        pollAndCatch outs fuel = .failure .fetchError) := by
  have hdone : ∀ outs fuel k, (outs : Nat → PollOutcome) k = .ok "done" →
      pollRetry outs fuel k = .ok () := by
    intro outs fuel k h
    rw [pollRetry, h]
    simp [pollStep]
  have htrans : ∀ outs fuel k, (outs : Nat → PollOutcome) k = .transportError →
      pollRetry outs fuel k = .error .fetchError := by
    intro outs fuel k h
    rw [pollRetry, h]
    simp [pollStep, retryWhile]
  refine ⟨?_, hdone, ?_, htrans, ?_⟩
  · intro o
    constructor
    · intro h
      cases o with
      | ok s =>
          refine ⟨s, rfl, ?_⟩
          intro hs
          subst hs
          simp [pollRetries, pollStep] at h
      | transportError =>
          simp [pollRetries, pollStep, retryWhile] at h
    · rintro ⟨s, rfl, hs⟩
      simp [pollRetries, pollStep, retryWhile, hs]
  · intro outs fuel k s h hs
    rw [pollRetry, h]
    simp [pollStep, retryWhile, hs]
  · intro outs fuel h
    rw [pollAndCatch, htrans outs fuel 0 h]

/-- Witness for C4: outcomes "pending", "", "done"; the first two each
cause another attempt, a "done" terminates, a transport error is fatal. -/
theorem uploadFile_poll_retry_iff_witness :
    (cexPollOuts 0 = .ok "pending" ∧ ("pending" : String) ≠ "done"
      ∧ cexPollOuts 2 = .ok "done")
    ∧ pollRetries (.ok "") = true
    ∧ pollRetry cexPollOuts 5 2 = .ok ()
    ∧ pollRetry cexPollOuts 5 0 = pollRetry cexPollOuts 4 1
    ∧ pollRetry (fun _ => .transportError) 7 0 = .error .fetchError :=
  ⟨⟨rfl, by decide, rfl⟩,
    (uploadFile_poll_retry_iff.1 (.ok "")).mpr ⟨"", rfl, by decide⟩,
    uploadFile_poll_retry_iff.2.1 cexPollOuts 5 2 rfl,
    uploadFile_poll_retry_iff.2.2.1 cexPollOuts 4 0 "pending" rfl (by decide),
    uploadFile_poll_retry_iff.2.2.2.1 (fun _ => .transportError) 7 0 rfl⟩

/-- Helper: one exhausted part fiber makes the whole `Effect.all`
collection fail. -/
theorem collectAcksAux_none (outcomes : Nat → PartOutcome) :
    ∀ l : List Nat, ∀ i ∈ l, outcomes i = .exhausted →
      collectAcksAux outcomes l = none := by
  intro l
  induction l with
  | nil =>
    intro i hi
    simp at hi
  | cons j rest ih =>
    intro i hi hex
    rcases List.mem_cons.mp hi with h | h
    · subst h
      simp [collectAcksAux, hex]
    · cases hj : outcomes j with
      | success etag => simp [collectAcksAux, hj, ih i h hex]
      | exhausted => simp [collectAcksAux, hj]

/-- Helper: a successful `Effect.all` collection has exactly one ack per
listed part. -/
theorem collectAcksAux_length (outcomes : Nat → PartOutcome) :
    ∀ (l : List Nat) (acks : List PartAck),
      collectAcksAux outcomes l = some acks → acks.length = l.length := by
  intro l
  induction l with
  | nil =>
    intro acks h
    simp [collectAcksAux] at h
    simp [← h]
  | cons j rest ih =>
    intro acks h
    cases hj : outcomes j with
    | success etag =>
        rw [collectAcksAux, hj] at h
        cases hrest : collectAcksAux outcomes rest with
        | none => rw [hrest] at h; simp at h
        | some acks' =>
            rw [hrest] at h
            simp at h
            rw [← h]
            simp [ih acks' hrest]
    | exhausted => rw [collectAcksAux, hj] at h; simp at h

/-- C5.  Every `uploadPart` call carries `maxRetries = 10`; if any part
exhausts that bound (its outcome is the surfaced `RetryError`), the whole
multipart upload dies — the part is never silently dropped — and whenever
the completion call is made, it carries exactly one ack per part URL. -/
theorem uploadMultipart_retry_bound (file : FileEsque)
    (presigned : MPUResponse) (outcomes : Nat → PartOutcome) :
    (∀ call ∈ uploadMultipartPartCalls file presigned, call.maxRetries = 10)
    ∧ (uploadMultipartPartCalls file presigned).length = presigned.urls.length
    ∧ (∀ i, i < presigned.urls.length → outcomes i = .exhausted →
        uploadMultipartRun outcomes presigned = .died)
    ∧ (∀ etags, uploadMultipartRun outcomes presigned = .completed etags →
        etags.length = presigned.urls.length) := by
  refine ⟨?_, List.length_map _ _, ?_, ?_⟩
  · intro call hcall
    rcases List.mem_map.mp hcall with ⟨url, _, hurl⟩
    rw [← hurl]
  · intro i hi hex
    rw [uploadMultipartRun,
      collectAcksAux_none outcomes _ i (List.mem_range.mpr hi) hex]
  · intro etags h
    rw [uploadMultipartRun] at h
    cases hc : collectAcksAux outcomes (List.range presigned.urls.length) with
    | none => rw [hc] at h; simp at h
    | some acks =>
        rw [hc] at h
        simp at h
        have := collectAcksAux_length outcomes _ acks hc
        rw [← h, this, List.length_range]

/-- Witness for C5: a two-part upload whose first part exhausts its
retries dies; the generated calls carry `maxRetries = 10`. -/
theorem uploadMultipart_retry_bound_witness :
    ((uploadMultipartPartCalls cexFile cexMpu).map
        (fun call => call.maxRetries) = [10, 10])
    ∧ ((0 : Nat) < cexMpu.urls.length
      ∧ (fun i => if i = 0 then PartOutcome.exhausted
            else PartOutcome.success "etag") 0 = PartOutcome.exhausted
      ∧ uploadMultipartRun
          (fun i => if i = 0 then PartOutcome.exhausted
            else PartOutcome.success "etag") cexMpu = .died) :=
  ⟨by decide,
    by decide, by decide,
    (uploadMultipart_retry_bound cexFile cexMpu
      (fun i => if i = 0 then PartOutcome.exhausted
        else PartOutcome.success "etag")).2.2.1 0 (by decide) (by decide)⟩

/-- Helper: if no listed pipeline died, the matched records collect
positionally. -/
theorem collectFileResultsAux_some (exits : Nat → PipelineExit) :
    ∀ l : List Nat, (∀ i ∈ l, exits i ≠ .died) →
      ∃ rs, collectFileResultsAux exits l = some rs
        ∧ rs.length = l.length
        ∧ ∀ j, rs.get? j = (l.get? j).bind (fun i => matchExit (exits i)) := by
  intro l
  induction l with
  | nil =>
    intro _
    exact ⟨[], rfl, rfl, fun j => by cases j <;> rfl⟩
  | cons i rest ih =>
    intro hnd
    obtain ⟨rs, hrs, hlen, hget⟩ := ih (fun j hj => hnd j (List.mem_cons_of_mem i hj))
    have hi : exits i ≠ .died := hnd i (List.mem_cons_self i rest)
    obtain ⟨r, hr⟩ : ∃ r, matchExit (exits i) = some r := by
      cases h : exits i with
      | success a => exact ⟨_, rfl⟩
      | failure e => exact ⟨_, rfl⟩
      | died => exact absurd h hi
    refine ⟨r :: rs, ?_, by simpa using hlen, ?_⟩
    · simp [collectFileResultsAux, hr, hrs]
    · intro j
      cases j with
      | zero => simpa using hr.symm
      | succ j => simpa using hget j

/-- Helper: one dead pipeline makes the whole `Effect.forEach` collection
fail. -/
theorem collectFileResultsAux_none (exits : Nat → PipelineExit) :
    ∀ l : List Nat, ∀ i ∈ l, exits i = .died →
      collectFileResultsAux exits l = none := by
  intro l
  induction l with
  | nil =>
    intro i hi
    simp at hi
  | cons j rest ih =>
    intro i hi hdead
    rcases List.mem_cons.mp hi with h | h
    · subst h
      simp [collectFileResultsAux, matchExit, hdead]
    · cases hj : matchExit (exits j) with
      | some r => simp [collectFileResultsAux, hj, ih i h hdead]
      | none => simp [collectFileResultsAux, hj]

/-- C6.  When every file pipeline settles with a success or a typed
failure, the batch returns one `{ data, error }` record per input file,
in input order; the record at position `j` is determined by file `j`'s
exit alone — a success gives `{ data, error: null }`, a typed failure
`{ data: null, error }` — so one file's failure neither aborts nor
alters the other files' results. -/
theorem uploadFilesInternal_per_file (exits : Nat → PipelineExit) (n : Nat)
    (hnd : ∀ i, i < n → exits i ≠ .died) :
    ∃ rs, uploadFilesInternalRun exits n = .ok rs
      ∧ rs.length = n
      ∧ (∀ j, j < n → rs.get? j = matchExit (exits j))
      ∧ (∀ j r, j < n → exits j = .success r →
          rs.get? j = some { data := some r, error := none })
      ∧ (∀ j e, j < n → exits j = .failure e →
          rs.get? j = some { data := none, error := some e }) := by
  obtain ⟨rs, hrs, hlen, hget⟩ :=
    collectFileResultsAux_some exits (List.range n)
      (fun i hi => hnd i (List.mem_range.mp hi))
  have hj : ∀ j, j < n → rs.get? j = matchExit (exits j) := by
    intro j hjn
    rw [hget j, List.get?_eq_getElem?, List.getElem?_range hjn]
    rfl
  refine ⟨rs, ?_, by simpa using hlen, hj, ?_, ?_⟩
  · rw [uploadFilesInternalRun, hrs]
  · intro j r hjn hex
    rw [hj j hjn, hex]
    rfl
  · intro j e hjn hex
    rw [hj j hjn, hex]
    rfl

/-- Witness for C6: three pipelines — success, typed failure, success —
give three ordered records with the failure isolated at position 1. -/
theorem uploadFilesInternal_per_file_witness :
    (∀ i, i < 3 → cexExits i ≠ .died)
    ∧ (∃ rs, uploadFilesInternalRun cexExits 3 = .ok rs
        ∧ rs.length = 3
        ∧ (∀ j, j < 3 → rs.get? j = matchExit (cexExits j))
        ∧ (∀ j r, j < 3 → cexExits j = .success r →
            rs.get? j = some { data := some r, error := none })
        ∧ (∀ j e, j < 3 → cexExits j = .failure e →
            rs.get? j = some { data := none, error := some e })) :=
  ⟨by decide, uploadFilesInternal_per_file cexExits 3 (by decide)⟩

/-- C10.  Exhausted retries become defects, not typed failures: a poll
retry that surfaces its `RetryError` is converted by `catchTag` into a
defect; an exhausted part upload kills the multipart upload; and a
pipeline that died makes the whole batch call die instead of returning a
`{ data: null, error }` record for the affected file. -/
theorem retry_exhaustion_dies :
    (∀ outs fuel, pollRetry outs fuel 0 = .error .retryError →
        pollAndCatch outs fuel = .died)
    ∧ (∀ outs k s, outs k = .ok s → s ≠ "done" →
        pollRetry outs 0 k = .error .retryError)
    ∧ (∀ outcomes presigned i, i < (presigned : MPUResponse).urls.length →
        outcomes i = .exhausted →
        uploadMultipartRun outcomes presigned = .died)
    ∧ (∀ exits n j, j < n → exits j = .died →
        uploadFilesInternalRun exits n = .died) := by
  refine ⟨?_, ?_, ?_, ?_⟩
  · intro outs fuel h
    rw [pollAndCatch, h]
  · intro outs k s h hs
    rw [pollRetry, h]
    simp [pollStep, retryWhile, hs]
  · intro outcomes presigned i hi hex
    rw [uploadMultipartRun,
      collectAcksAux_none outcomes _ i (List.mem_range.mpr hi) hex]
  · intro exits n j hj hdead
    rw [uploadFilesInternalRun,
      collectFileResultsAux_none exits _ j (List.mem_range.mpr hj) hdead]

/-- Witness for C10: a poller that always sees "pending" with an empty
backoff budget dies; a dead pipeline at position 1 of a 3-file batch
makes the batch die. -/
theorem retry_exhaustion_dies_witness :
    pollAndCatch (fun _ => .ok "pending") 0 = .died
    ∧ pollRetry (fun _ => .ok "pending") 0 0 = .error .retryError
    ∧ uploadMultipartRun (fun _ => .exhausted) cexMpu = .died
    ∧ uploadFilesInternalRun
        (fun i => if i = 1 then .died else .success cexUploadResult) 3 =
        .died :=
  ⟨retry_exhaustion_dies.1 (fun _ => .ok "pending") 0
      (retry_exhaustion_dies.2.1 (fun _ => .ok "pending") 0 "pending" rfl
        (by decide)),
    retry_exhaustion_dies.2.1 (fun _ => .ok "pending") 0 "pending" rfl
      (by decide),
    retry_exhaustion_dies.2.2.1 (fun _ => .exhausted) cexMpu 0 (by decide) rfl,
    retry_exhaustion_dies.2.2.2
      (fun i => if i = 1 then .died else .success cexUploadResult) 3 1
      (by decide) (by decide)⟩

/-- C7.  The form body is the descriptor's fields in iteration order with
the file payload appended strictly last under the name "file"; the POST
carries an `Accept: application/xml` header; and a non-ok response yields
an `UPLOAD_FAILED` error whose cause is the response body text. -/
theorem uploadPresignedPost_form_order (file : FileEsque)
    (presigned : PSPResponse) (res : HttpResponse) :
    (uploadPresignedPostForm file presigned).getLast? =
        some ("file", FormValue.file file)
    ∧ (uploadPresignedPostForm file presigned).take presigned.fields.length =
        presigned.fields.map (fun kv => (kv.1, FormValue.str kv.2))
    ∧ (uploadPresignedPostForm file presigned).length =
        presigned.fields.length + 1
    ∧ uploadPresignedPostHeaders = [("Accept", "application/xml")]
    ∧ (res.ok = false →
        uploadPresignedPostResult res =
          .failed { code := "UPLOAD_FAILED",
                    message := "Failed to upload file",
                    cause := some res.text }) := by
  refine ⟨?_, ?_, ?_, rfl, ?_⟩
  · rw [uploadPresignedPostForm, List.getLast?_concat]
  · have hlen : (presigned.fields.map
        fun kv => (kv.1, FormValue.str kv.2)).length =
        presigned.fields.length := List.length_map _ _
    rw [uploadPresignedPostForm, ← hlen, List.take_left]
  · simp [uploadPresignedPostForm]
  · intro hok
    rw [uploadPresignedPostResult, hok]
    rfl

/-- Witness for C7 at the spec's scenario C: fields `{key, policy}` and a
file "a.png" give the form entry order `key, policy, file`; a non-ok
response carries its body text as the error cause. -/
theorem uploadPresignedPost_form_order_witness :
    uploadPresignedPostForm { name := "a.png", type := "image/png", size := 1 }
        cexPsp =
      [("key", FormValue.str "abc"), ("policy", FormValue.str "xyz"),
       ("file", FormValue.file { name := "a.png", type := "image/png", size := 1 })]
    ∧ ({ ok := false, text := "<Error/>" } : HttpResponse).ok = false
    ∧ (uploadPresignedPostForm
          { name := "a.png", type := "image/png", size := 1 } cexPsp).getLast? =
        some ("file",
          FormValue.file { name := "a.png", type := "image/png", size := 1 })
    ∧ uploadPresignedPostResult { ok := false, text := "<Error/>" } =
        .failed { code := "UPLOAD_FAILED", message := "Failed to upload file",
                  cause := some "<Error/>" } :=
  ⟨by decide, rfl,
    (uploadPresignedPost_form_order
      { name := "a.png", type := "image/png", size := 1 } cexPsp
      { ok := false, text := "<Error/>" }).1,
    (uploadPresignedPost_form_order
      { name := "a.png", type := "image/png", size := 1 } cexPsp
      { ok := false, text := "<Error/>" }).2.2.2.2 rfl⟩

/-- Helper: JS `split` never returns an empty array. -/
theorem splitOnChar_ne_nil (c : Char) :
    ∀ s : List Char, splitOnChar c s ≠ [] := by
  intro s
  induction s with
  | nil => simp [splitOnChar]
  | cons x xs ih =>
    by_cases h : x = c
    · simp [splitOnChar, h]
    · rw [splitOnChar, if_neg h]
      cases hs : splitOnChar c xs with
      | nil => simp
      | cons seg rest => simp

/-- Helper: a string containing the separator splits into at least two
segments. -/
theorem two_le_splitOnChar_length (c : Char) :
    ∀ s : List Char, c ∈ s → 2 ≤ (splitOnChar c s).length := by
  intro s
  induction s with
  | nil =>
    intro h
    simp at h
  | cons x xs ih =>
    intro hmem
    by_cases h : x = c
    · rw [splitOnChar, if_pos h]
      cases hs : splitOnChar c xs with
      | nil => exact absurd hs (splitOnChar_ne_nil c xs)
      | cons a l => simp
    · have hx : c ∈ xs := by
        rcases List.mem_cons.mp hmem with h1 | h1
        · exact absurd h1.symm h
        · exact h1
      have h2 := ih hx
      rw [splitOnChar, if_neg h]
      cases hs : splitOnChar c xs with
      | nil => exact absurd hs (splitOnChar_ne_nil c xs)
      | cons seg rest =>
        rw [hs] at h2
        simpa using h2

/-- Helper: when the string ends in the separator, the final segment is
empty. -/
theorem getLast?_splitOnChar_sep (c : Char) :
    ∀ xs : List Char, (splitOnChar c (xs ++ [c])).getLast? = some [] := by
  intro xs
  induction xs with
  | nil => simp [splitOnChar]
  | cons x xs ih =>
    by_cases h : x = c
    · rw [List.cons_append, splitOnChar, if_pos h]
      cases hs : splitOnChar c (xs ++ [c]) with
      | nil => exact absurd hs (splitOnChar_ne_nil c _)
      | cons seg rest =>
        rw [hs] at ih
        rw [List.getLast?_cons_cons]
        exact ih
    · rw [List.cons_append, splitOnChar, if_neg h]
      have hlen : 2 ≤ (splitOnChar c (xs ++ [c])).length :=
        two_le_splitOnChar_length c _ (by simp)
      cases hs : splitOnChar c (xs ++ [c]) with
      | nil => exact absurd hs (splitOnChar_ne_nil c _)
      | cons seg rest =>
        rw [hs] at ih hlen
        cases rest with
        | nil => simp at hlen
        | cons seg2 rest2 =>
          simp only
          rw [List.getLast?_cons_cons] at ih ⊢
          exact ih

/-- C8 counterexample.  A URL string ending in "/" yields the empty
string as the derived file name, not the "unknown-filename" fallback:
`pop()` returns the empty final segment, which `??` does not replace. -/
theorem deriveFileName_trailing_slash :
    deriveFileName "https://example.com/files/" = ""
    ∧ deriveFileName "https://example.com/files/" ≠ "unknown-filename"
    ∧ deriveFileName "https://example.com/files/a.png" = "a.png" := by
  refine ⟨by decide, by decide, by decide⟩

/-- C8 amended.  The derived name is always the URL string's final
"/"-separated segment — the "unknown-filename" fallback is unreachable,
because `split` never yields an empty array — and a URL string ending in
"/" therefore derives the empty name, not the fallback. -/
theorem deriveFileName_last_segment :
    (∀ s : String, ∃ seg, (splitOnChar '/' s.toList).getLast? = some seg
        ∧ deriveFileName s = String.mk seg)
    ∧ (∀ (s : String) (cs : List Char), s.toList = cs ++ ['/'] →
        deriveFileName s = "") := by
  constructor
  · intro s
    cases hs : (splitOnChar '/' s.toList).getLast? with
    | none =>
        exfalso
        rw [List.getLast?_eq_none_iff] at hs
        exact splitOnChar_ne_nil '/' s.toList hs
    | some seg =>
        refine ⟨seg, rfl, ?_⟩
        rw [deriveFileName, hs]
  · intro s cs h
    rw [deriveFileName, h, getLast?_splitOnChar_sep]

/-- Witness for the amended C8 at the URL string "a/". -/
theorem deriveFileName_last_segment_witness :
    ("a/" : String).toList = ['a'] ++ ['/']
    ∧ deriveFileName "a/" = "" :=
  ⟨by decide, deriveFileName_last_segment.2 "a/" ['a'] (by decide)⟩

/-- C9 counterexample.  The three concurrency options are literal
constants — `{ concurrency: 10 }` twice and `{ concurrency: "inherit" }`
— identical for every input; no configuration parameter exists, contrary
to the claim that the ceilings are configurable rather than hard-coded. -/
theorem concurrency_hardcoded :
    uploadFilesInternalConcurrency [] = .bounded 10
    ∧ uploadFilesInternalConcurrency cexFiles = .bounded 10
    ∧ downloadFilesConcurrency [] = .bounded 10
    ∧ downloadFilesConcurrency ["https://u.example/x"] = .bounded 10
    ∧ uploadMultipartConcurrency cexFile cexMpu = .inherit :=
  ⟨rfl, rfl, rfl, rfl, rfl⟩

/-- Helper: under a `cap`-bounded scope, the running in-flight count
never exceeds `cap` at any point of a legal schedule. -/
theorem validTrace_count_le (cap : Nat) :
    ∀ (pre : List FiberEvent) (c : Nat) (post : List FiberEvent),
      ValidTrace cap c (pre ++ post) → c ≤ cap → runCount c pre ≤ cap := by
  intro pre
  induction pre with
  | nil =>
    intro c post _ hc
    simpa [runCount] using hc
  | cons e pre ih =>
    intro c post hv hc
    cases e with
    | start i =>
        rw [List.cons_append] at hv
        cases hv with
        | start _ _ _ hlt hrest =>
            show runCount (c + 1) pre ≤ cap
            exact ih (c + 1) post hrest hlt
    | finish i =>
        rw [List.cons_append] at hv
        cases hv with
        | finish _ _ _ hpos hrest =>
            show runCount (c - 1) pre ≤ cap
            exact ih (c - 1) post hrest (by omega)

/-- C9 amended.  The batch-level ceiling is 10, the download-level
ceiling is 10, part fibers inherit the enclosing scope's ceiling — all
three as hard-coded literals, identical for every input — and in a
bounded scope no schedule ever has more in-flight fibers than the
ceiling. -/
theorem concurrency_ceilings :
    (∀ files, uploadFilesInternalConcurrency files = .bounded 10)
    ∧ (∀ urls, downloadFilesConcurrency urls = .bounded 10)
    ∧ (∀ file presigned, uploadMultipartConcurrency file presigned = .inherit)
    ∧ (∀ cap c pre post, ValidTrace cap c (pre ++ post) → c ≤ cap →
        runCount c pre ≤ cap) := by
  refine ⟨fun _ => rfl, fun _ => rfl, fun _ _ => rfl, ?_⟩
  intro cap c pre post hv hc
  exact validTrace_count_le cap pre c post hv hc

/-- Witness for the amended C9: a cap-2 scope scheduling three fibers
keeps the in-flight count at or below 2 after any prefix. -/
theorem concurrency_ceilings_witness :
    ValidTrace 2 0
      [FiberEvent.start 0, FiberEvent.start 1, FiberEvent.finish 0,
       FiberEvent.start 2]
    ∧ (0 : Nat) ≤ 2
    ∧ runCount 0 [FiberEvent.start 0, FiberEvent.start 1] ≤ 2 := by
  have hv : ValidTrace 2 0
      [FiberEvent.start 0, FiberEvent.start 1, FiberEvent.finish 0,
       FiberEvent.start 2] := by
    apply ValidTrace.start 0 0 _ (by omega)
    apply ValidTrace.start 1 1 _ (by omega)
    apply ValidTrace.finish 2 0 _ (by omega)
    apply ValidTrace.start 1 2 _ (by omega)
    exact ValidTrace.nil 2
  refine ⟨hv, by omega, ?_⟩
  exact concurrency_ceilings.2.2.2 2 0
    [FiberEvent.start 0, FiberEvent.start 1]
    [FiberEvent.finish 0, FiberEvent.start 2] hv (by omega)
